import Mathlib

/-!
Verification of the centrifuge Node core (node.go): control plane,
publish pipeline, channel-name grammar, node registry and lifecycle.

Go strings are modelled as lists of characters (`GoStr`); the relevant
functions of the Go `strings` standard library are modelled below.
Collaborators that are external to the core (Hub, Engine, the protobuf
codecs, the NUID generator, the wall clock) are modelled as an
environment of result oracles (`Env`), and the core's calls into them
are recorded as an explicit effect trace (`Effect`).
-/

namespace Centrifuge

/-- Go strings modelled as lists of characters. -/
abbrev GoStr := List Char

/-- Embed a string literal as a Go string value. -/
def gs (s : String) : GoStr := s.data

/-! ## Model of the Go `strings` standard library -/

/-- Models Go `strings.Index(s, sep)`: index of the first occurrence of
`sep` in `s` (`none` when absent; `some 0` for the empty separator). -/
def goIndex (sep : GoStr) : GoStr → Option Nat
  | [] => if sep = [] then some 0 else none
  | c :: cs => if sep.isPrefixOf (c :: cs) then some 0 else (goIndex sep cs).map (· + 1)

/-- Models Go `strings.Contains(s, sub)`. -/
def goContains (s sub : GoStr) : Bool := (goIndex sub s).isSome

/-- Models Go `strings.HasPrefix(s, pre)`. -/
def goHasPrefixStr (s pre : GoStr) : Bool := pre.isPrefixOf s

/-- Models Go `strings.TrimPrefix(s, pre)`. -/
def goTrimPrefixStr (s pre : GoStr) : GoStr :=
  if pre.isPrefixOf s then s.drop pre.length else s

/-- Fuel-driven worker for `goSplit`; the fuel bounds the number of
separator occurrences consumed, and `goSplit` supplies enough fuel
(`s.length`) for the result to agree with Go's unbounded scan. -/
def goSplitFuel (sep : GoStr) : Nat → GoStr → List GoStr
  | 0, s => [s]
  | fuel + 1, s =>
    match goIndex sep s with
    | none => [s]
    | some i => s.take i :: goSplitFuel sep fuel (s.drop (i + sep.length))

/-- Models Go `strings.Split(s, sep)`: left-to-right non-overlapping
split on `sep`; the empty separator explodes the string into characters. -/
def goSplit (sep s : GoStr) : List GoStr :=
  if sep = [] then s.map (fun c => [c]) else goSplitFuel sep s.length s

/-- Models Go `strings.SplitN(s, sep, 2)`. -/
def goSplitN2 (s sep : GoStr) : List GoStr :=
  if sep = [] then
    match s with
    | [] => []
    | c :: cs => if cs = [] then [[c]] else [[c], cs]
  else
    match goIndex sep s with
    | none => [s]
    | some i => [s.take i, s.drop (i + sep.length)]

/-- Go `parts[len(parts)-1]` on a non-empty slice of strings. -/
def goLast : List GoStr → GoStr
  | [] => []
  | [x] => x
  | _ :: x :: xs => goLast (x :: xs)

/-- Go `parts[0]` on a non-empty slice of strings. -/
def goHead : List GoStr → GoStr
  | [] => []
  | x :: _ => x

/-! ## Character-level description of the channel grammar

These two functions are written from the specification's wording
("segment after the last occurrence of the boundary", "prefix before
the first occurrence") and are later proved to coincide with what the
code computes via `strings.Split` / `strings.SplitN`. -/

/-- The segment of `s` after the last occurrence of the character `b`
(`none` when `b` does not occur in `s`). -/
def afterLastChar (b : Char) : GoStr → Option GoStr
  | [] => none
  | c :: cs =>
    match afterLastChar b cs with
    | some t => some t
    | none => if c = b then some cs else none

/-- The prefix of `s` before the first occurrence of the character `b`
(`none` when `b` does not occur in `s`). -/
def beforeFirstChar (b : Char) : GoStr → Option GoStr
  | [] => none
  | c :: cs => if c = b then some [] else (beforeFirstChar b cs).map (c :: ·)


/-! ## Data model of the Node core -/

/-- Per-namespace channel options (history, presence, join/leave).
Only their identity matters to these claims. -/
structure ChannelOptions where
  historySize : Nat
  historyLifetime : Nat
  presence : Bool
  joinLeave : Bool
deriving DecidableEq

/-- Node configuration: human labels, the channel-name delimiters and the
namespace table. `namespaces` models the configured set of namespaces as
a partial map from namespace name to its options. -/
structure Config where
  name : GoStr
  version : GoStr
  channelPrivatePrefixStr : GoStr
  channelNamespaceBoundary : GoStr
  channelUserBoundary : GoStr
  channelUserSeparator : GoStr
  channelClientBoundary : GoStr
  namespaces : GoStr → Option ChannelOptions

/-- Modelled from the spec: `Config.channelOpts` (the config source file
is not under src/; §4.3: "look up the namespace in config; return its
options if present, else `NamespaceNotFound`"). `none` stands for the
`ok = false` return. -/
def Config.channelOpts (cfg : Config) (ns : GoStr) : Option ChannelOptions :=
  cfg.namespaces ns

/-- A peer record exchanged in node control commands (controlproto.Node). -/
structure NodeRec where
  uid : GoStr
  name : GoStr
  version : GoStr
  numClients : Nat
  numUsers : Nat
  numChannels : Nat
  uptime : Nat
deriving DecidableEq

/-- The registry of known nodes. The two Go maps `nodes` and `updates`
are modelled as partial maps (functions into `Option`); `updates` holds
the unix-second timestamp a node was last seen. -/
structure nodeRegistry where
  currentUID : GoStr
  nodes : GoStr → Option NodeRec
  updates : GoStr → Option Int

/-- `nodeRegistry.add`: upsert the record and refresh its last-seen
timestamp (`now` models `time.Now().Unix()`). -/
def nodeRegistry.add (r : nodeRegistry) (now : Int) (info : NodeRec) : nodeRegistry :=
  { r with
    nodes := fun u => if u = info.uid then some info else r.nodes u
    updates := fun u => if u = info.uid then some now else r.updates u }

/-- `nodeRegistry.clean(delay)`: drop every record, except the current
node's, whose last-seen timestamp is more than `delay` seconds old
(`now - updated > delay`); a record with no timestamp (defensively
unreachable per the source comment) is dropped from `nodes` only. -/
def nodeRegistry.clean (r : nodeRegistry) (now delay : Int) : nodeRegistry :=
  { r with
    nodes := fun u =>
      if u = r.currentUID then r.nodes u
      else
        match r.nodes u with
        | none => none
        | some info =>
          match r.updates u with
          | none => none
          | some updated => if now - updated > delay then none else some info
    updates := fun u =>
      if u = r.currentUID then r.updates u
      else
        match r.nodes u, r.updates u with
        | some _, some updated => if now - updated > delay then none else r.updates u
        | _, _ => r.updates u }

/-- Publication: a message delivered within a channel. -/
structure Publication where
  uid : GoStr
  data : GoStr
deriving DecidableEq

/-- Control method tags (controlproto.MethodType). Modelled from the
spec: the concrete protobuf enum values are not under src/; only their
distinctness is relied upon. -/
def methodTypeNode : Nat := 0

def methodTypeUnsubscribe : Nat := 1

def methodTypeDisconnect : Nat := 2

/-- Control command payloads. The wire codec is an injected collaborator
treated as opaque, so encoded params are modelled by their decoded
structure; `raw` stands for bytes that decode as none of the known
payloads. -/
inductive CtrlParams
  | node (info : NodeRec)
  | unsubscribe (user channel : GoStr)
  | disconnect (user : GoStr)
  | raw (k : Nat)
deriving DecidableEq

/-- A control command (controlproto.Command). -/
structure Command where
  uid : GoStr
  method : Nat
  params : CtrlParams
deriving DecidableEq

/-- `controlDecoder.DecodeNode`: succeeds exactly on a node payload. -/
def decodeNode : CtrlParams → Option NodeRec
  | .node info => some info
  | _ => none

/-- `controlDecoder.DecodeUnsubscribe`. -/
def decodeUnsubscribe : CtrlParams → Option (GoStr × GoStr)
  | .unsubscribe user channel => some (user, channel)
  | _ => none

/-- `controlDecoder.DecodeDisconnect`. -/
def decodeDisconnect : CtrlParams → Option GoStr
  | .disconnect user => some user
  | _ => none

/-- Client message type tags (proto.MessageType). Modelled from the
spec: the concrete protobuf enum values are not under src/; only their
distinctness is relied upon. -/
def messageTypePublication : Nat := 0

def messageTypeJoin : Nat := 1

def messageTypeLeave : Nat := 2

/-- Client message payloads, modelled by their decoded structure as for
control params. -/
inductive MsgData
  | publication (pub : Publication)
  | join (info : GoStr)
  | leave (info : GoStr)
  | raw (k : Nat)
deriving DecidableEq

/-- An inbound engine message for a channel (proto.Message). -/
structure Message where
  type : Nat
  channel : GoStr
  data : MsgData
deriving DecidableEq

/-- `messageDecoder.DecodePublication`. -/
def decodePublication : MsgData → Option Publication
  | .publication pub => some pub
  | _ => none

/-- `messageDecoder.DecodeJoin`. -/
def decodeJoin : MsgData → Option GoStr
  | .join info => some info
  | _ => none

/-- `messageDecoder.DecodeLeave`. -/
def decodeLeave : MsgData → Option GoStr
  | .leave info => some info
  | _ => none

/-- Go errors returned by the core; `external k` stands for an opaque
error produced by a collaborator (hub or engine). -/
inductive GoErr
  | badRequest
  | namespaceNotFound
  | internalServerError
  | decodeError
  | controlMethodNotFound (method : Nat)
  | external (k : Nat)
deriving DecidableEq

/-- Calls the core makes into its collaborators and its metric
counters, recorded in order as an effect trace. -/
inductive Effect
  | incrReceived (label : GoStr)
  | incrSent (label : GoStr)
  | logError (message : GoStr)
  | hubUnsubscribe (user channel : GoStr)
  | hubDisconnect (user : GoStr) (reconnect : Bool)
  | hubShutdown
  | closeShutdownCh
  | hubBroadcastPublication (channel : GoStr) (pub : Publication)
  | hubBroadcastJoin (channel : GoStr)
  | hubBroadcastLeave (channel : GoStr)
  | enginePublish (channel : GoStr) (pub : Publication) (opts : ChannelOptions)
  | enginePublishControl (cmd : Command)
deriving DecidableEq

/-- Results of collaborator calls (hub, engine), the NUID generator and
the wall clock: external behaviour the core's control flow depends on.
`none` models a nil Go error. -/
structure Env where
  hubUnsubscribeRes : GoStr → GoStr → Option GoErr
  hubDisconnectRes : GoStr → Bool → Option GoErr
  hubShutdownRes : Option GoErr
  hubNumSubscribers : GoStr → Nat
  hubBroadcastPublicationRes : GoStr → Publication → Option GoErr
  hubBroadcastJoinRes : GoStr → Option GoErr
  hubBroadcastLeaveRes : GoStr → Option GoErr
  enginePublishRes : GoStr → Publication → ChannelOptions → Option GoErr
  enginePublishControlRes : Command → Option GoErr
  nuidNext : GoStr
  now : Int

/-- The mutable node state the claims observe: unique id, config, the
registry of known nodes, the shutdown flag and whether the shutdown
signal channel has been closed. -/
structure NodeState where
  uid : GoStr
  config : Config
  nodes : nodeRegistry
  shutdown : Bool
  shutdownChClosed : Bool

def labelControl : GoStr := gs "control"

def labelPublication : GoStr := gs "publication"

def labelJoin : GoStr := gs "join"

def labelLeave : GoStr := gs "leave"

/-! ## Operations of the Node core (translated from node.go) -/

/-- `Node.namespaceName`: strip the private prefix, then the part before
the first namespace boundary (via `strings.SplitN(..., 2)`), else the
root namespace. -/
def namespaceName (cfg : Config) (ch : GoStr) : GoStr :=
  let cTrim := goTrimPrefixStr ch cfg.channelPrivatePrefixStr
  if goContains cTrim cfg.channelNamespaceBoundary then
    goHead (goSplitN2 cTrim cfg.channelNamespaceBoundary)
  else []

/-- `Node.ChannelOpts`: channel options for the channel's namespace. -/
def ChannelOpts (n : NodeState) (ch : GoStr) : Option ChannelOptions :=
  n.config.channelOpts (namespaceName n.config ch)

/-- `Node.userAllowed`: a channel may end, after the user boundary, in a
separator-joined list of the user ids allowed to subscribe. -/
def userAllowed (cfg : Config) (ch user : GoStr) : Bool :=
  if !goContains ch cfg.channelUserBoundary then true
  else
    let parts := goSplit cfg.channelUserBoundary ch
    let allowedUsers := goSplit cfg.channelUserSeparator (goLast parts)
    allowedUsers.contains user

/-- `Node.clientAllowed`: a channel may end, after the client boundary,
in the single client id allowed to subscribe. -/
def clientAllowed (cfg : Config) (ch client : GoStr) : Bool :=
  if !goContains ch cfg.channelClientBoundary then true
  else
    let parts := goSplit cfg.channelClientBoundary ch
    goLast parts == client

/-- `Node.privateChannel`: whether the channel name carries the private
prefix. -/
def privateChannel (cfg : Config) (ch : GoStr) : Bool :=
  goHasPrefixStr ch cfg.channelPrivatePrefixStr

/-- `Node.nodeCmd`: record the announced peer in the registry. -/
def nodeCmd (env : Env) (n : NodeState) (info : NodeRec) : Option GoErr × NodeState :=
  (none, { n with nodes := n.nodes.add env.now info })

/-- `Node.handleControl`: count the control message, suppress commands
originating from this node, then dispatch on the method tag. -/
def handleControl (env : Env) (n : NodeState) (cmd : Command) :
    Option GoErr × NodeState × List Effect :=
  if cmd.uid = n.uid then
    (none, n, [.incrReceived labelControl])
  else if cmd.method = methodTypeNode then
    match decodeNode cmd.params with
    | none =>
      (some .decodeError, n,
        [.incrReceived labelControl, .logError (gs "error decoding node control params")])
    | some info =>
      ((nodeCmd env n info).1, (nodeCmd env n info).2, [.incrReceived labelControl])
  else if cmd.method = methodTypeUnsubscribe then
    match decodeUnsubscribe cmd.params with
    | none =>
      (some .decodeError, n,
        [.incrReceived labelControl, .logError (gs "error decoding unsubscribe control params")])
    | some (user, channel) =>
      (env.hubUnsubscribeRes user channel, n,
        [.incrReceived labelControl, .hubUnsubscribe user channel])
  else if cmd.method = methodTypeDisconnect then
    match decodeDisconnect cmd.params with
    | none =>
      (some .decodeError, n,
        [.incrReceived labelControl, .logError (gs "error decoding disconnect control params")])
    | some user =>
      (env.hubDisconnectRes user false, n,
        [.incrReceived labelControl, .hubDisconnect user false])
  else
    (some (.controlMethodNotFound cmd.method), n,
      [.incrReceived labelControl, .logError (gs "unknown control message method")])

/-- `Node.handlePublication`: count it; deliver to local subscribers
only when the channel has any. -/
def handlePublication (env : Env) (ch : GoStr) (pub : Publication) :
    Option GoErr × List Effect :=
  if env.hubNumSubscribers ch > 0 then
    (env.hubBroadcastPublicationRes ch pub,
      [.incrReceived labelPublication, .hubBroadcastPublication ch pub])
  else (none, [.incrReceived labelPublication])

/-- `Node.handleJoin`. -/
def handleJoin (env : Env) (ch : GoStr) : Option GoErr × List Effect :=
  if env.hubNumSubscribers ch > 0 then
    (env.hubBroadcastJoinRes ch, [.incrReceived labelJoin, .hubBroadcastJoin ch])
  else (none, [.incrReceived labelJoin])

/-- `Node.handleLeave`. -/
def handleLeave (env : Env) (ch : GoStr) : Option GoErr × List Effect :=
  if env.hubNumSubscribers ch > 0 then
    (env.hubBroadcastLeaveRes ch, [.incrReceived labelLeave, .hubBroadcastLeave ch])
  else (none, [.incrReceived labelLeave])

/-- `Node.handleClientMessage`: dispatch an inbound engine message on
its type tag; the result of the per-type handler is discarded, decode
failures are returned, and any other tag falls through the (empty)
default case. -/
def handleClientMessage (env : Env) (msg : Message) : Option GoErr × List Effect :=
  if msg.type = messageTypePublication then
    match decodePublication msg.data with
    | none => (some .decodeError, [])
    | some pub => (none, (handlePublication env msg.channel pub).2)
  else if msg.type = messageTypeJoin then
    match decodeJoin msg.data with
    | none => (some .decodeError, [])
    | some _ => (none, (handleJoin env msg.channel).2)
  else if msg.type = messageTypeLeave then
    match decodeLeave msg.data with
    | none => (some .decodeError, [])
    | some _ => (none, (handleLeave env msg.channel).2)
  else (none, [])

/-- Resolution of options in the publish pipeline: an explicit argument
wins, otherwise look the channel up in the config. -/
def resolveOpts (n : NodeState) (ch : GoStr) : Option ChannelOptions → Option ChannelOptions
  | some o => some o
  | none => ChannelOpts n ch

/-- `Node.publish`: resolve options (failing fast), count the sent
publication, stamp a fresh uid onto a publication that has none, and
hand off to `engine.publish`. The first component is the eventual value
of the returned error channel. -/
def publish (env : Env) (n : NodeState) (ch : GoStr) (pub : Publication)
    (optsArg : Option ChannelOptions) : Option GoErr × List Effect :=
  match resolveOpts n ch optsArg with
  | none => (some .namespaceNotFound, [])
  | some opts =>
    let pub2 := if pub.uid = [] then { pub with uid := env.nuidNext } else pub
    (env.enginePublishRes ch pub2 opts,
      [.incrSent labelPublication, .enginePublish ch pub2 opts])

/-- `Node.publishControl`: count the sent control message and hand it to
`engine.publishControl`. -/
def publishControl (env : Env) (cmd : Command) : Option GoErr × List Effect :=
  (env.enginePublishControlRes cmd, [.incrSent labelControl, .enginePublishControl cmd])

/-- The control command built by `Node.pubUnsubscribe`. -/
def unsubscribeCmd (n : NodeState) (user ch : GoStr) : Command :=
  { uid := n.uid, method := methodTypeUnsubscribe, params := .unsubscribe user ch }

/-- `Node.pubUnsubscribe`. -/
def pubUnsubscribe (env : Env) (n : NodeState) (user ch : GoStr) :
    Option GoErr × List Effect :=
  publishControl env (unsubscribeCmd n user ch)

/-- The control command built by `Node.pubDisconnect`: the encoded
payload carries only the user id. -/
def disconnectCmd (n : NodeState) (user : GoStr) : Command :=
  { uid := n.uid, method := methodTypeDisconnect, params := .disconnect user }

/-- `Node.pubDisconnect`; its `reconnect` argument is not part of the
built command. -/
def pubDisconnect (env : Env) (n : NodeState) (user : GoStr) (reconnect : Bool) :
    Option GoErr × List Effect :=
  publishControl env (disconnectCmd n user)

/-- `Node.Unsubscribe`: argument checks, the local hub step, then the
cluster broadcast. -/
def Unsubscribe (env : Env) (n : NodeState) (user ch : GoStr) :
    Option GoErr × List Effect :=
  if user = [] then (some .badRequest, [])
  else if ch ≠ [] ∧ ChannelOpts n ch = none then (some .namespaceNotFound, [])
  else
    match env.hubUnsubscribeRes user ch with
    | some _ => (some .internalServerError, [.hubUnsubscribe user ch])
    | none =>
      match pubUnsubscribe env n user ch with
      | (some _, fx) => (some .internalServerError, .hubUnsubscribe user ch :: fx)
      | (none, fx) => (none, .hubUnsubscribe user ch :: fx)

/-- `Node.Disconnect`: argument check, the local hub step, then the
cluster broadcast. -/
def Disconnect (env : Env) (n : NodeState) (user : GoStr) (reconnect : Bool) :
    Option GoErr × List Effect :=
  if user = [] then (some .badRequest, [])
  else
    match env.hubDisconnectRes user reconnect with
    | some _ => (some .internalServerError, [.hubDisconnect user reconnect])
    | none =>
      match pubDisconnect env n user reconnect with
      | (some _, fx) => (some .internalServerError, .hubDisconnect user reconnect :: fx)
      | (none, fx) => (none, .hubDisconnect user reconnect :: fx)

/-- `Node.Shutdown`: first caller sets the flag, closes the shutdown
signal channel and shuts the hub down; later callers return nil
immediately. -/
def Shutdown (env : Env) (n : NodeState) : Option GoErr × NodeState × List Effect :=
  if n.shutdown then (none, n, [])
  else
    (env.hubShutdownRes,
      { n with shutdown := true, shutdownChClosed := true },
      [.closeShutdownCh, .hubShutdown])

/-! ## Spec-side statements of the channel grammar -/

/-- Written from the claim: when the user boundary occurs in the
channel, the segment after its last occurrence, split on the user
separator, is the allow-list of user ids; otherwise every user is
allowed. -/
def userAllowedSpec (b : Char) (sep : GoStr) (ch user : GoStr) : Bool :=
  match afterLastChar b ch with
  | none => true
  | some seg => (goSplit sep seg).contains user

/-- Written from the claim: the namespace is the prefix of the
private-prefix-stripped channel before the first occurrence of the
boundary character, or the root (empty) namespace when the boundary
does not occur. -/
def namespaceNameSpec (priv : GoStr) (b : Char) (ch : GoStr) : GoStr :=
  (beforeFirstChar b (goTrimPrefixStr ch priv)).getD []

/-- Effect-trace predicate used to count control-received increments. -/
def isCtrlRecvIncr : Effect → Bool
  | .incrReceived l => decide (l = labelControl)
  | _ => false

/-- How many times a trace increments the control-received counter. -/
def countCtrlRecv (fx : List Effect) : Nat := (fx.filter isCtrlRecvIncr).length

/-! ## Concrete fixtures used by the witnesses -/

/-- Channel options of the fixture namespaces. -/
def opts0 : ChannelOptions :=
  { historySize := 10, historyLifetime := 60, presence := true, joinLeave := true }

/-- A concrete configuration with the usual delimiters and two
namespaces: `chat` and the root namespace. -/
def cfg0 : Config :=
  { name := gs "n1"
    version := gs "v1"
    channelPrivatePrefixStr := gs "$"
    channelNamespaceBoundary := gs ":"
    channelUserBoundary := gs "#"
    channelUserSeparator := gs ","
    channelClientBoundary := gs "&"
    namespaces := fun ns => if ns = gs "chat" ∨ ns = [] then some opts0 else none }

/-- The fixture node's own peer record. -/
def nodeSelfRec : NodeRec :=
  { uid := gs "self", name := gs "n1", version := gs "v1",
    numClients := 1, numUsers := 1, numChannels := 1, uptime := 5 }

/-- A fixture peer record. -/
def nodeARec : NodeRec :=
  { uid := gs "a", name := gs "n2", version := gs "v1",
    numClients := 2, numUsers := 2, numChannels := 1, uptime := 9 }

/-- A registry holding the current node (last seen at 10, deliberately
stale) and peer `a` (last seen at 40). -/
def reg0 : nodeRegistry :=
  { currentUID := gs "self"
    nodes := fun u =>
      if u = gs "self" then some nodeSelfRec
      else if u = gs "a" then some nodeARec
      else none
    updates := fun u =>
      if u = gs "self" then some 10
      else if u = gs "a" then some 40
      else none }

/-- A benign environment: every collaborator call succeeds, two local
subscribers everywhere, fresh NUID `"nuid1"`, clock at 100. -/
def env0 : Env :=
  { hubUnsubscribeRes := fun _ _ => none
    hubDisconnectRes := fun _ _ => none
    hubShutdownRes := none
    hubNumSubscribers := fun _ => 2
    hubBroadcastPublicationRes := fun _ _ => none
    hubBroadcastJoinRes := fun _ => none
    hubBroadcastLeaveRes := fun _ => none
    enginePublishRes := fun _ _ _ => none
    enginePublishControlRes := fun _ => none
    nuidNext := gs "nuid1"
    now := 100 }

/-- Like `env0` but the local hub unsubscribe fails. -/
def envHubFail : Env := { env0 with hubUnsubscribeRes := fun _ _ => some (.external 1) }

/-- Like `env0` but the control broadcast fails. -/
def envPubFail : Env := { env0 with enginePublishControlRes := fun _ => some (.external 2) }

/-- The fixture node state. -/
def n0 : NodeState :=
  { uid := gs "self", config := cfg0, nodes := reg0,
    shutdown := false, shutdownChClosed := false }

/-- An inbound engine message with an unknown type tag. -/
def msg99 : Message := { type := 99, channel := gs "ch1", data := .raw 7 }

/-! ## Lemmas about the string model -/

theorem singleton_isPrefixOf_cons (b c : Char) (cs : GoStr) :
    [b].isPrefixOf (c :: cs) = (b == c) := by
  simp [List.isPrefixOf]

theorem goIndex_single_none_iff (b : Char) (s : GoStr) :
    goIndex [b] s = none ↔ b ∉ s := by
  induction s with
  | nil => simp [goIndex]
  | cons c cs ih =>
    rw [goIndex, singleton_isPrefixOf_cons]
    by_cases h : b = c
    · simp [h]
    · have hne : (b == c) = false := beq_eq_false_iff_ne.2 h
      rw [hne]
      simp only [Bool.false_eq_true, if_false, Option.map_eq_none', List.mem_cons, not_or]
      rw [ih]
      exact ⟨fun hh => ⟨h, hh⟩, fun hh => hh.2⟩

theorem goIndex_single_some (b : Char) :
    ∀ (s : GoStr) (i : Nat), goIndex [b] s = some i →
      s.take i ++ b :: s.drop (i + 1) = s ∧ b ∉ s.take i := by
  intro s
  induction s with
  | nil => intro i h; simp [goIndex] at h
  | cons c cs ih =>
    intro i h
    rw [goIndex, singleton_isPrefixOf_cons] at h
    by_cases hbc : b = c
    · rw [hbc, beq_self_eq_true, if_pos rfl] at h
      obtain rfl : i = 0 := by simpa using h.symm
      simp [hbc]
    · have hne : (b == c) = false := beq_eq_false_iff_ne.2 hbc
      rw [hne] at h
      simp only [Bool.false_eq_true, if_false, Option.map_eq_some'] at h
      obtain ⟨j, hj, rfl⟩ := h
      obtain ⟨hdecomp, hmem⟩ := ih j hj
      refine ⟨?_, ?_⟩
      · simpa [List.take_succ_cons, List.drop_succ_cons] using congrArg (c :: ·) hdecomp
      · simp only [List.take_succ_cons, List.mem_cons, not_or]
        exact ⟨hbc, hmem⟩

theorem afterLastChar_none_iff (b : Char) (s : GoStr) :
    afterLastChar b s = none ↔ b ∉ s := by
  induction s with
  | nil => simp [afterLastChar]
  | cons c cs ih =>
    rw [afterLastChar]
    cases h : afterLastChar b cs with
    | some t =>
      have hb : b ∈ cs := by
        by_contra hnb
        rw [ih.2 hnb] at h
        exact Option.noConfusion h
      simp [hb]
    | none =>
      have hnb : b ∉ cs := ih.1 h
      by_cases hcb : c = b
      · simp [hcb]
      · simp only [if_neg hcb, List.mem_cons, not_or, true_iff]
        exact ⟨fun hh => hcb hh.symm, hnb⟩

theorem afterLastChar_append_cons (b : Char) (p r : GoStr) (hp : b ∉ p) :
    afterLastChar b (p ++ b :: r) = some ((afterLastChar b r).getD r) := by
  induction p with
  | nil =>
    rw [List.nil_append, afterLastChar]
    cases h : afterLastChar b r with
    | some t => simp [h]
    | none => simp [h]
  | cons c cs ih =>
    have hc : c ≠ b := fun hh => hp (by simp [hh])
    have hcs : b ∉ cs := fun hh => hp (by simp [hh])
    rw [List.cons_append, afterLastChar, ih hcs]

theorem goSplitFuel_ne_nil (sep : GoStr) (fuel : Nat) (s : GoStr) :
    goSplitFuel sep fuel s ≠ [] := by
  cases fuel with
  | zero => simp [goSplitFuel]
  | succ n =>
    rw [goSplitFuel]
    cases goIndex sep s <;> simp

theorem goLast_cons_of_ne_nil (x : GoStr) (l : List GoStr) (h : l ≠ []) :
    goLast (x :: l) = goLast l := by
  cases l with
  | nil => exact absurd rfl h
  | cons y ys => rw [goLast]

/-- The last element of the Go split on a single-character separator is
the segment after the last occurrence of that character. -/
theorem goLast_goSplitFuel_single (b : Char) :
    ∀ (fuel : Nat) (s : GoStr), s.length ≤ fuel →
      goLast (goSplitFuel [b] fuel s) = (afterLastChar b s).getD s := by
  intro fuel
  induction fuel with
  | zero =>
    intro s hs
    obtain rfl : s = [] := by
      cases s with
      | nil => rfl
      | cons c cs => simp at hs
    simp [goSplitFuel, goLast, afterLastChar]
  | succ n ih =>
    intro s hs
    rw [goSplitFuel]
    cases hidx : goIndex [b] s with
    | none =>
      have hb : b ∉ s := (goIndex_single_none_iff b s).1 hidx
      rw [(afterLastChar_none_iff b s).2 hb]
      simp [goLast]
    | some i =>
      obtain ⟨hdecomp, hmem⟩ := goIndex_single_some b s i hidx
      have hlen : (s.drop (i + 1)).length ≤ n := by
        have h1 : s.length = (s.take i).length + (b :: s.drop (i + 1)).length := by
          conv_lhs => rw [← hdecomp]
          simp
        have h2 : (s.drop (i + 1)).length + 1 ≤ s.length := by
          simp only [List.length_cons] at h1
          omega
        omega
      have hne := goSplitFuel_ne_nil [b] n (s.drop (i + 1))
      rw [List.length_singleton, goLast_cons_of_ne_nil _ _ hne, ih _ hlen]
      conv_rhs => rw [← hdecomp]
      rw [afterLastChar_append_cons b _ _ hmem]
      rfl

theorem beforeFirstChar_eq_goIndex (b : Char) (s : GoStr) :
    beforeFirstChar b s = (goIndex [b] s).map (fun i => s.take i) := by
  induction s with
  | nil => simp [beforeFirstChar, goIndex]
  | cons c cs ih =>
    rw [beforeFirstChar, goIndex, singleton_isPrefixOf_cons]
    by_cases h : c = b
    · simp [h]
    · have hne : (b == c) = false := by
        simp only [beq_eq_false_iff_ne, ne_eq]
        exact fun hh => h hh.symm
      rw [hne, if_neg h]
      simp only [Bool.false_eq_true, if_false, ih]
      cases goIndex [b] cs <;> simp

/-- C5: `userAllowed(ch, user)`: with no user boundary in `ch` every
user is allowed; otherwise the segment after the last occurrence of the
(single-character) boundary, split on the user separator, lists exactly
the allowed user ids. -/
theorem userAllowed_matches_lastSegment (cfg : Config) (ch user : GoStr) (b : Char)
    (hb : cfg.channelUserBoundary = [b]) :
    userAllowed cfg ch user = userAllowedSpec b cfg.channelUserSeparator ch user := by
  unfold userAllowed userAllowedSpec
  rw [hb]
  cases hc : afterLastChar b ch with
  | none =>
    have hmem : b ∉ ch := (afterLastChar_none_iff b ch).1 hc
    have hidx : goIndex [b] ch = none := (goIndex_single_none_iff b ch).2 hmem
    simp [goContains, hidx]
  | some t =>
    have hmem : b ∈ ch := by
      by_contra hn
      rw [(afterLastChar_none_iff b ch).2 hn] at hc
      exact Option.noConfusion hc
    have hcont : goContains ch [b] = true := by
      unfold goContains
      cases hgi : goIndex [b] ch with
      | none => exact absurd ((goIndex_single_none_iff b ch).1 hgi) (by simpa using hmem)
      | some i => rfl
    rw [hcont]
    have hsplit : goSplit [b] ch = goSplitFuel [b] ch.length ch := by
      unfold goSplit
      rw [if_neg (by simp)]
    simp only [Bool.not_true, Bool.false_eq_true, if_false]
    rw [hsplit, goLast_goSplitFuel_single b ch.length ch le_rfl, hc]
    rfl

/-- C6: `namespaceName(ch)`: the private prefix is stripped, and the
namespace is the prefix of the remainder before the first occurrence of
the (single-character) namespace boundary, else the root namespace. -/
theorem namespaceName_matches_firstBoundary (cfg : Config) (ch : GoStr) (b : Char)
    (hb : cfg.channelNamespaceBoundary = [b]) :
    namespaceName cfg ch = namespaceNameSpec cfg.channelPrivatePrefixStr b ch := by
  unfold namespaceName namespaceNameSpec
  rw [hb]
  cases hi : goIndex [b] (goTrimPrefixStr ch cfg.channelPrivatePrefixStr) with
  | none =>
    have hcont : goContains (goTrimPrefixStr ch cfg.channelPrivatePrefixStr) [b] = false := by
      unfold goContains
      rw [hi]
      rfl
    rw [beforeFirstChar_eq_goIndex, hi]
    simp [hcont]
  | some i =>
    have hcont : goContains (goTrimPrefixStr ch cfg.channelPrivatePrefixStr) [b] = true := by
      unfold goContains
      rw [hi]
      rfl
    rw [beforeFirstChar_eq_goIndex, hi]
    simp [hcont, goSplitN2, hi, goHead]

/-- C5 witness: the spec's literal examples on the fixture config. -/
theorem userAllowed_matches_lastSegment_inst :
    cfg0.channelUserBoundary = ['#'] ∧
    userAllowed cfg0 (gs "room#alice,bob") (gs "alice") =
      userAllowedSpec '#' cfg0.channelUserSeparator (gs "room#alice,bob") (gs "alice") ∧
    userAllowed cfg0 (gs "room#alice,bob") (gs "alice") = true ∧
    userAllowed cfg0 (gs "room#alice,bob") (gs "carol") = false :=
  ⟨by decide,
   userAllowed_matches_lastSegment cfg0 (gs "room#alice,bob") (gs "alice") '#' (by decide),
   by decide, by decide⟩

/-- C6 witness: `namespace(prefix+ns:foo) = ns` on the fixture config. -/
theorem namespaceName_matches_firstBoundary_inst :
    cfg0.channelNamespaceBoundary = [':'] ∧
    namespaceName cfg0 (gs "$chat:lobby") =
      namespaceNameSpec cfg0.channelPrivatePrefixStr ':' (gs "$chat:lobby") ∧
    namespaceName cfg0 (gs "$chat:lobby") = gs "chat" :=
  ⟨by decide,
   namespaceName_matches_firstBoundary cfg0 (gs "$chat:lobby") ':' (by decide),
   by decide⟩

/-! ## Control plane -/

/-- C1: a control command whose uid equals the local node's id is
suppressed on receipt: `handleControl` returns nil, the node state (and
with it the registry) is unchanged, and the trace holds no hub or
registry call — only the control-received counter increment — for every
method and params. -/
theorem handleControl_self_suppression (env : Env) (n : NodeState) (cmd : Command)
    (h : cmd.uid = n.uid) :
    handleControl env n cmd = (none, n, [.incrReceived labelControl]) := by
  simp [handleControl, h]

/-- C1 witness at a concrete self-originated command. -/
theorem handleControl_self_suppression_inst :
    handleControl env0 n0 { uid := gs "self", method := 42, params := .raw 7 } =
      (none, n0, [.incrReceived labelControl]) :=
  handleControl_self_suppression env0 n0
    { uid := gs "self", method := 42, params := .raw 7 } (by decide)

/-- C10: every control command — self-originated ones included —
increments the control-received counter exactly once, and for a
self-originated command that increment is the call's only effect. -/
theorem handleControl_counts_control_once (env : Env) (n : NodeState) (cmd : Command) :
    countCtrlRecv (handleControl env n cmd).2.2 = 1 ∧
      (cmd.uid = n.uid → (handleControl env n cmd).2.2 = [.incrReceived labelControl]) := by
  constructor
  · unfold handleControl
    repeat' split
    all_goals simp [countCtrlRecv, isCtrlRecvIncr]
  · intro h
    simp [handleControl, h]

/-- C10 witness at a concrete self-originated unsubscribe command. -/
theorem handleControl_counts_control_once_inst :
    countCtrlRecv
        (handleControl env0 n0
          { uid := gs "self", method := methodTypeUnsubscribe,
            params := .unsubscribe (gs "u1") (gs "chat:lobby") }).2.2 = 1 ∧
      (handleControl env0 n0
          { uid := gs "self", method := methodTypeUnsubscribe,
            params := .unsubscribe (gs "u1") (gs "chat:lobby") }).2.2 =
        [.incrReceived labelControl] :=
  ⟨(handleControl_counts_control_once env0 n0
      { uid := gs "self", method := methodTypeUnsubscribe,
        params := .unsubscribe (gs "u1") (gs "chat:lobby") }).1,
   (handleControl_counts_control_once env0 n0
      { uid := gs "self", method := methodTypeUnsubscribe,
        params := .unsubscribe (gs "u1") (gs "chat:lobby") }).2 (by decide)⟩

/-- C8: the disconnect control command encodes only the user id — the
command (and the whole of `pubDisconnect`) is independent of the
`reconnect` argument — and a peer receiving a disconnect control
command always applies `hub.disconnect(user, false)`. -/
theorem disconnect_control_omits_reconnect (env : Env) (n : NodeState) :
    (∀ user r1 r2, pubDisconnect env n user r1 = pubDisconnect env n user r2) ∧
    (∀ user reconnect, pubDisconnect env n user reconnect =
      (env.enginePublishControlRes (disconnectCmd n user),
        [.incrSent labelControl, .enginePublishControl (disconnectCmd n user)])) ∧
    (∀ cmd user, cmd.uid ≠ n.uid → cmd.method = methodTypeDisconnect →
      cmd.params = .disconnect user →
      handleControl env n cmd =
        (env.hubDisconnectRes user false, n,
          [.incrReceived labelControl, .hubDisconnect user false])) := by
  refine ⟨fun user r1 r2 => rfl, fun user reconnect => rfl, fun cmd user h1 h2 h3 => ?_⟩
  simp [handleControl, h1, h2, h3, methodTypeNode, methodTypeUnsubscribe,
    methodTypeDisconnect, decodeDisconnect]

/-- C8 witness: concrete send with `reconnect = true` vs `false`, and a
concrete receipt applying `hub.disconnect(user, false)`. -/
theorem disconnect_control_omits_reconnect_inst :
    pubDisconnect env0 n0 (gs "u1") true = pubDisconnect env0 n0 (gs "u1") false ∧
    pubDisconnect env0 n0 (gs "u1") true =
      (env0.enginePublishControlRes (disconnectCmd n0 (gs "u1")),
        [.incrSent labelControl, .enginePublishControl (disconnectCmd n0 (gs "u1"))]) ∧
    handleControl env0 n0
        { uid := gs "peer", method := methodTypeDisconnect,
          params := .disconnect (gs "u1") } =
      (env0.hubDisconnectRes (gs "u1") false, n0,
        [.incrReceived labelControl, .hubDisconnect (gs "u1") false]) :=
  ⟨(disconnect_control_omits_reconnect env0 n0).1 (gs "u1") true false,
   (disconnect_control_omits_reconnect env0 n0).2.1 (gs "u1") true,
   (disconnect_control_omits_reconnect env0 n0).2.2
     { uid := gs "peer", method := methodTypeDisconnect,
       params := .disconnect (gs "u1") } (gs "u1") (by decide) rfl rfl⟩

/-! ## Client message pipeline -/

/-- C4 counterexample: at the concrete unknown-tag message `msg99` the
switch's default case is empty — no error-level log entry is emitted —
refuting the claim that unknown message types are logged at error level
(the rest of the claim, dropping without error, does hold). -/
theorem handleClientMessage_unknown_not_logged :
    ¬ ((handleClientMessage env0 msg99).1 = none ∧
        (∃ m, Effect.logError m ∈ (handleClientMessage env0 msg99).2)) := by
  intro h
  obtain ⟨-, m, hm⟩ := h
  have htrace : (handleClientMessage env0 msg99).2 = [] := rfl
  rw [htrace] at hm
  simp at hm

/-- C4 (amended): an inbound client message whose type tag is none of
Publication, Join, Leave is silently dropped: nil is returned and no
effect at all (no broadcast, no counter, no log, no hub call) is
performed. -/
theorem handleClientMessage_unknown_dropped (env : Env) (msg : Message)
    (h1 : msg.type ≠ messageTypePublication)
    (h2 : msg.type ≠ messageTypeJoin)
    (h3 : msg.type ≠ messageTypeLeave) :
    handleClientMessage env msg = (none, []) := by
  simp [handleClientMessage, h1, h2, h3]

/-- C4 witness at the concrete unknown-tag message. -/
theorem handleClientMessage_unknown_dropped_inst :
    handleClientMessage env0 msg99 = (none, []) :=
  handleClientMessage_unknown_dropped env0 msg99 (by decide) (by decide) (by decide)

/-! ## Publish pipeline -/

/-- C3: once options resolve, exactly one publication is handed to
`engine.publish`; entering with an empty uid it is stamped in place
with the fresh (non-empty) NUID, and a non-empty uid rides through
unchanged. -/
theorem publish_uid_stamping (env : Env) (n : NodeState) (ch : GoStr) (pub : Publication)
    (optsArg : Option ChannelOptions) (o : ChannelOptions)
    (hopts : resolveOpts n ch optsArg = some o) (hnuid : env.nuidNext ≠ []) :
    ∃ pub2 : Publication,
      publish env n ch pub optsArg =
        (env.enginePublishRes ch pub2 o,
          [.incrSent labelPublication, .enginePublish ch pub2 o]) ∧
      pub2.uid ≠ [] ∧
      (pub.uid = [] → pub2 = { pub with uid := env.nuidNext }) ∧
      (pub.uid ≠ [] → pub2 = pub) := by
  refine ⟨if pub.uid = [] then { pub with uid := env.nuidNext } else pub, ?_, ?_, ?_, ?_⟩
  · simp only [publish, hopts]
  · by_cases h : pub.uid = [] <;> simp [h, hnuid]
  · intro h; simp [h]
  · intro h; simp [h]

/-- C3 witness: one publication entering with an empty uid, one with a
non-empty uid. -/
theorem publish_uid_stamping_inst :
    (∃ pub2 : Publication,
      publish env0 n0 (gs "chat:lobby") { uid := [], data := gs "hi" } (some opts0) =
        (env0.enginePublishRes (gs "chat:lobby") pub2 opts0,
          [.incrSent labelPublication, .enginePublish (gs "chat:lobby") pub2 opts0]) ∧
      pub2.uid ≠ [] ∧
      (({ uid := [], data := gs "hi" } : Publication).uid = [] →
        pub2 = { uid := env0.nuidNext, data := gs "hi" }) ∧
      (({ uid := [], data := gs "hi" } : Publication).uid ≠ [] →
        pub2 = { uid := [], data := gs "hi" })) ∧
    (∃ pub2 : Publication,
      publish env0 n0 (gs "chat:lobby") { uid := gs "p1", data := gs "hi" } (some opts0) =
        (env0.enginePublishRes (gs "chat:lobby") pub2 opts0,
          [.incrSent labelPublication, .enginePublish (gs "chat:lobby") pub2 opts0]) ∧
      pub2.uid ≠ [] ∧
      (({ uid := gs "p1", data := gs "hi" } : Publication).uid = [] →
        pub2 = { uid := env0.nuidNext, data := gs "hi" }) ∧
      (({ uid := gs "p1", data := gs "hi" } : Publication).uid ≠ [] →
        pub2 = { uid := gs "p1", data := gs "hi" })) :=
  ⟨publish_uid_stamping env0 n0 (gs "chat:lobby") { uid := [], data := gs "hi" }
      (some opts0) opts0 rfl (by decide),
   publish_uid_stamping env0 n0 (gs "chat:lobby") { uid := gs "p1", data := gs "hi" }
      (some opts0) opts0 rfl (by decide)⟩

/-! ## Public API facade -/

/-- C2: `Unsubscribe` rejects an empty user with BadRequest; a
non-empty channel must resolve its namespace or NamespaceNotFound is
returned before anything happens; otherwise the local hub unsubscribe
runs first — a failure there yields InternalServerError and skips the
broadcast — and only on local success is the unsubscribe control
command broadcast, whose failure also yields InternalServerError while
the local hub call stays in the trace (not reverted). -/
theorem Unsubscribe_contract (env : Env) (n : NodeState) (user ch : GoStr) :
    (user = [] → Unsubscribe env n user ch = (some .badRequest, [])) ∧
    (user ≠ [] → ch ≠ [] → ChannelOpts n ch = none →
      Unsubscribe env n user ch = (some .namespaceNotFound, [])) ∧
    (user ≠ [] → ¬(ch ≠ [] ∧ ChannelOpts n ch = none) →
      (∀ e, env.hubUnsubscribeRes user ch = some e →
        Unsubscribe env n user ch =
          (some .internalServerError, [.hubUnsubscribe user ch])) ∧
      (env.hubUnsubscribeRes user ch = none →
        Unsubscribe env n user ch =
          ((match env.enginePublishControlRes (unsubscribeCmd n user ch) with
            | some _ => some .internalServerError
            | none => none),
            [.hubUnsubscribe user ch, .incrSent labelControl,
              .enginePublishControl (unsubscribeCmd n user ch)]))) := by
  refine ⟨fun h => by simp [Unsubscribe, h], fun h1 h2 h3 => ?_, fun h1 h2 => ⟨?_, ?_⟩⟩
  · simp [Unsubscribe, h1, h2, h3]
  · intro e he
    simp [Unsubscribe, h1, h2, he]
  · intro hn
    simp only [Unsubscribe, if_neg (by simpa using h1), if_neg h2, hn,
      pubUnsubscribe, publishControl]
    cases env.enginePublishControlRes (unsubscribeCmd n user ch) <;> simp

/-- C2 witness: the four branches at concrete inputs (empty user,
unresolvable namespace, failing local hub step, failing broadcast). -/
theorem Unsubscribe_contract_inst :
    Unsubscribe env0 n0 [] (gs "chat:lobby") = (some .badRequest, []) ∧
    Unsubscribe env0 n0 (gs "u1") (gs "nons:x") = (some .namespaceNotFound, []) ∧
    Unsubscribe envHubFail n0 (gs "u1") (gs "chat:lobby") =
      (some .internalServerError, [.hubUnsubscribe (gs "u1") (gs "chat:lobby")]) ∧
    Unsubscribe envPubFail n0 (gs "u1") (gs "chat:lobby") =
      ((match envPubFail.enginePublishControlRes
            (unsubscribeCmd n0 (gs "u1") (gs "chat:lobby")) with
        | some _ => some .internalServerError
        | none => none),
        [.hubUnsubscribe (gs "u1") (gs "chat:lobby"), .incrSent labelControl,
          .enginePublishControl (unsubscribeCmd n0 (gs "u1") (gs "chat:lobby"))]) :=
  ⟨(Unsubscribe_contract env0 n0 [] (gs "chat:lobby")).1 rfl,
   (Unsubscribe_contract env0 n0 (gs "u1") (gs "nons:x")).2.1 (by decide) (by decide)
     (by decide),
   ((Unsubscribe_contract envHubFail n0 (gs "u1") (gs "chat:lobby")).2.2 (by decide)
       (by decide)).1 (.external 1) (by decide),
   ((Unsubscribe_contract envPubFail n0 (gs "u1") (gs "chat:lobby")).2.2 (by decide)
       (by decide)).2 (by decide)⟩

/-! ## Node lifecycle -/

/-- C9: `Shutdown` is idempotent: the first call sets the flag, closes
the shutdown signal channel and calls `hub.shutdown()`; any call on an
already-shut-down node returns nil, leaves the state alone, and closes
nothing and shuts nothing down again. -/
theorem Shutdown_idempotent (env env2 : Env) (n : NodeState) :
    (n.shutdown = false →
      Shutdown env n =
        (env.hubShutdownRes,
          { n with shutdown := true, shutdownChClosed := true },
          [.closeShutdownCh, .hubShutdown])) ∧
    (n.shutdown = true → Shutdown env n = (none, n, [])) ∧
    (n.shutdown = false →
      Shutdown env2 (Shutdown env n).2.1 = (none, (Shutdown env n).2.1, [])) := by
  refine ⟨fun h => by simp [Shutdown, h], fun h => by simp [Shutdown, h],
    fun h => by simp [Shutdown, h]⟩

/-- C9 witness: first and second call on the fixture node. -/
theorem Shutdown_idempotent_inst :
    Shutdown env0 n0 =
      (env0.hubShutdownRes, { n0 with shutdown := true, shutdownChClosed := true },
        [.closeShutdownCh, .hubShutdown]) ∧
    Shutdown env0 (Shutdown env0 n0).2.1 = (none, (Shutdown env0 n0).2.1, []) :=
  ⟨(Shutdown_idempotent env0 env0 n0).1 rfl,
   (Shutdown_idempotent env0 env0 n0).2.2 rfl⟩

/-! ## Node registry -/

/-- C7: `clean` keeps the current node's record regardless of how stale
its timestamp is, and treats a timestamped peer record by its age: gone
exactly when `now - lastSeen > delay`, unchanged otherwise. -/
theorem clean_removes_exactly_stale (r : nodeRegistry) (now delay : Int) (u : GoStr) :
    ((r.clean now delay).nodes r.currentUID = r.nodes r.currentUID) ∧
    (u ≠ r.currentUID → ∀ t, r.updates u = some t →
      (r.clean now delay).nodes u = if now - t > delay then none else r.nodes u) := by
  constructor
  · simp [nodeRegistry.clean]
  · intro hu t ht
    simp only [nodeRegistry.clean, if_neg hu]
    rw [ht]
    by_cases hst : now - t > delay
    · cases r.nodes u <;> simp [hst]
    · cases r.nodes u <;> simp [hst]

/-- C7 witness: the spec scenario — peer `a` last seen 60 s ago is
removed by `clean(30)`, the (even staler) self record is kept. -/
theorem clean_removes_exactly_stale_inst :
    ((reg0.clean 100 30).nodes reg0.currentUID = reg0.nodes reg0.currentUID) ∧
    (reg0.clean 100 30).nodes (gs "a") =
      (if (100 : Int) - 40 > 30 then none else reg0.nodes (gs "a")) ∧
    (reg0.clean 100 30).nodes (gs "a") = none ∧
    (reg0.clean 100 30).nodes (gs "self") = some nodeSelfRec :=
  ⟨(clean_removes_exactly_stale reg0 100 30 (gs "a")).1,
   (clean_removes_exactly_stale reg0 100 30 (gs "a")).2 (by decide) 40 (by decide),
   by decide, by decide⟩

end Centrifuge
